import Mathlib

/-!
Verification development for the MNBusinessScraper repository.

The definitions below are shallow embeddings of the Python source:
  - `convert_date_to_iso`, `parse_address`   from mn_scraper.py
  - the sequential scrape loop (`runLoop`)   from MNBusinessScraper.run
  - the save filter of the name-search worker from search_by_name_parallel.py
  - the worker partitioning                  from mn_scraper_parallel.py /
                                              search_by_name_parallel.py
  - the consolidation / dedup                from merge_results.py /
                                              export_to_github.py
  - the resume logic                         from mn_scraper_parallel.scrape_range

Strings are modelled as `List Char` internally (`String.data`).  Python's
`str.strip` is modelled over the ASCII whitespace characters (space, \t, \n,
\r, \v, \f); the Unicode whitespace cases are irrelevant to every claim.
`datetime.strptime(s, "%m/%d/%Y")` is modelled following CPython's _strptime
regexes: %m = (1[0-2]|0[1-9]|[1-9]), %d = (3[01]|[12]\d|0[1-9]|[1-9]),
%Y = four digits, whole string consumed, followed by the calendar validation
performed by the datetime constructor (month lengths, leap years, year >= 1).
The alternations are compiled here in first-match-commits style; this is
extensionally equal to the backtracking semantics because after any longer
alternative succeeds, the character following the shorter alternative is a
digit and can never match the literal '/' that the format demands next.
-/

/-- ASCII whitespace, the characters Python's str.strip removes. -/
def isPySpace (c : Char) : Bool :=
  c.toNat = 32 || c.toNat = 9 || c.toNat = 10 || c.toNat = 13 ||
  c.toNat = 11 || c.toNat = 12

/-- ASCII digit test ('0'..'9'). -/
def isDigitC (c : Char) : Bool := 48 ≤ c.toNat && c.toNat ≤ 57

/-- Remove trailing characters satisfying p. -/
def dropTrailingWhile (p : Char → Bool) (l : List Char) : List Char :=
  (l.reverse.dropWhile p).reverse

/-- Python str.strip(): drop leading and trailing whitespace. -/
def pyStrip (l : List Char) : List Char :=
  dropTrailingWhile isPySpace (l.dropWhile isPySpace)

/-- CPython %m: regex (1[0-2]|0[1-9]|[1-9]), returning month and rest. -/
def matchMonth : List Char → Option (Nat × List Char)
  | c1 :: c2 :: rest =>
    if c1.toNat = 49 ∧ 48 ≤ c2.toNat ∧ c2.toNat ≤ 50 then
      some (10 + (c2.toNat - 48), rest)
    else if c1.toNat = 48 ∧ 49 ≤ c2.toNat ∧ c2.toNat ≤ 57 then
      some (c2.toNat - 48, rest)
    else if 49 ≤ c1.toNat ∧ c1.toNat ≤ 57 then
      some (c1.toNat - 48, c2 :: rest)
    else none
  | [c1] =>
    if 49 ≤ c1.toNat ∧ c1.toNat ≤ 57 then some (c1.toNat - 48, []) else none
  | [] => none

/-- CPython %d: regex (3[01]|[12]\d|0[1-9]|[1-9]), returning day and rest. -/
def matchDay : List Char → Option (Nat × List Char)
  | c1 :: c2 :: rest =>
    if c1.toNat = 51 ∧ 48 ≤ c2.toNat ∧ c2.toNat ≤ 49 then
      some (30 + (c2.toNat - 48), rest)
    else if (49 ≤ c1.toNat ∧ c1.toNat ≤ 50) ∧ (48 ≤ c2.toNat ∧ c2.toNat ≤ 57) then
      some (10 * (c1.toNat - 48) + (c2.toNat - 48), rest)
    else if c1.toNat = 48 ∧ 49 ≤ c2.toNat ∧ c2.toNat ≤ 57 then
      some (c2.toNat - 48, rest)
    else if 49 ≤ c1.toNat ∧ c1.toNat ≤ 57 then
      some (c1.toNat - 48, c2 :: rest)
    else none
  | [c1] =>
    if 49 ≤ c1.toNat ∧ c1.toNat ≤ 57 then some (c1.toNat - 48, []) else none
  | [] => none

/-- CPython %Y: exactly four digits. -/
def matchYear4 : List Char → Option (Nat × List Char)
  | a :: b :: c :: d :: rest =>
    if isDigitC a ∧ isDigitC b ∧ isDigitC c ∧ isDigitC d then
      some (1000 * (a.toNat - 48) + 100 * (b.toNat - 48) +
            10 * (c.toNat - 48) + (d.toNat - 48), rest)
    else none
  | _ => none

/-- The literal '/' of the format string. -/
def matchSlash : List Char → Option (List Char)
  | c :: rest => if c.toNat = 47 then some rest else none
  | [] => none

/-- Gregorian leap-year rule used by datetime. -/
def isLeap (y : Nat) : Bool :=
  y % 4 = 0 && (!(y % 100 = 0) || y % 400 = 0)

/-- Number of days of a month, as validated by the datetime constructor. -/
def daysInMonth (y m : Nat) : Nat :=
  if m = 2 then (if isLeap y then 29 else 28)
  else if m = 4 ∨ m = 6 ∨ m = 9 ∨ m = 11 then 30
  else 31

/-- datetime.strptime(s, "%m/%d/%Y"): regex match over the whole string,
then the constructor's calendar validation (MINYEAR = 1; day bounded by the
month length).  Returns (month, day, year) on success. -/
def parseMMDDYYYY (l : List Char) : Option (Nat × Nat × Nat) := do
  let (m, r1) ← matchMonth l
  let r2 ← matchSlash r1
  let (d, r3) ← matchDay r2
  let r4 ← matchSlash r3
  let (y, r5) ← matchYear4 r4
  if r5 = [] ∧ 1 ≤ y ∧ d ≤ daysInMonth y m then some (m, d, y) else none

/-- The decimal digit character for n (n is always < 10 at use sites). -/
def digitChar (n : Nat) : Char :=
  if n = 0 then '0' else if n = 1 then '1' else if n = 2 then '2'
  else if n = 3 then '3' else if n = 4 then '4' else if n = 5 then '5'
  else if n = 6 then '6' else if n = 7 then '7' else if n = 8 then '8'
  else '9'

/-- Two-digit zero-padded field of strftime (%m, %d). -/
def pad2 (n : Nat) : List Char := [digitChar (n / 10 % 10), digitChar (n % 10)]

/-- Four-digit zero-padded year of strftime (%Y).  (For years below 1000 some
platforms print fewer digits; every claim here is insensitive to the choice,
because such a string re-enters only the fallback branch.) -/
def pad4 (n : Nat) : List Char :=
  [digitChar (n / 1000 % 10), digitChar (n / 100 % 10),
   digitChar (n / 10 % 10), digitChar (n % 10)]

/-- dt.strftime("%Y-%m-%d"). -/
def formatISO (y m d : Nat) : List Char :=
  pad4 y ++ '-' :: pad2 m ++ '-' :: pad2 d

/-- The regex ^\d{4}-\d{2}-\d{2} tested on the first ten characters:
true iff l starts with NNNN-NN-NN. -/
def isoShape10 : List Char → Bool
  | a :: b :: c :: d :: e :: f :: g :: h :: i :: j :: _ =>
    isDigitC a && isDigitC b && isDigitC c && isDigitC d &&
    e.toNat = 45 && isDigitC f && isDigitC g && h.toNat = 45 &&
    isDigitC i && isDigitC j
  | _ => false

/-- mn_scraper.convert_date_to_iso: empty/whitespace-only gives '', then the
MM/DD/YYYY parse (tried twice in the source with the identical format, hence
modelled once), then the leading-ISO regex returning the first ten characters,
otherwise the (stripped) input unchanged. -/
def convert_date_to_iso (s : String) : String :=
  let l := pyStrip s.data
  if l = [] then ""
  else
    match parseMMDDYYYY l with
    | some (m, d, y) => String.mk (formatISO y m d)
    | none =>
      if isoShape10 (l.take 10) then String.mk (l.take 10) else String.mk l

/-- convert_date_to_iso at the Python call boundary: a None argument is
falsy, so the guard `if not date_str or not date_str.strip()` returns ''
before any method is called on None; no exception escapes. -/
def convert_date_to_iso_checked : Option String → Except String String
  | none => .ok ""
  | some s => .ok (convert_date_to_iso s)

/-! ## Address parser (mn_scraper.parse_address) -/

/-- Python str.upper for ASCII letters (address lines are ASCII). -/
def pyUpperChar (c : Char) : Char :=
  if 97 ≤ c.toNat ∧ c.toNat ≤ 122 then Char.ofNat (c.toNat - 32) else c

/-- Python str.lower for ASCII letters. -/
def pyLowerChar (c : Char) : Char :=
  if 65 ≤ c.toNat ∧ c.toNat ≤ 90 then Char.ofNat (c.toNat + 32) else c

def pyUpper (l : List Char) : List Char := l.map pyUpperChar

def pyLower (l : List Char) : List Char := l.map pyLowerChar

/-- ASCII letter (what [A-Z] with re.IGNORECASE accepts on this data). -/
def isAlphaC (c : Char) : Bool :=
  (65 ≤ c.toNat && c.toNat ≤ 90) || (97 ≤ c.toNat && c.toNat ≤ 122)

/-- Python str.split(sep) for a one-character separator: splits at every
occurrence, keeping empty chunks. -/
def splitOnChar (sep : Char) : List Char → List (List Char)
  | [] => [[]]
  | c :: rest =>
    let r := splitOnChar sep rest
    if c = sep then [] :: r
    else
      match r with
      | h :: t => (c :: h) :: t
      | [] => [[c]]

/-- Python str.split() with no argument: whitespace runs separate words,
empty words are dropped. -/
def pySplitWsAux : List Char → List Char → List (List Char)
  | [], acc => if acc = [] then [] else [acc.reverse]
  | c :: rest, acc =>
    if isPySpace c then
      if acc = [] then pySplitWsAux rest [] else acc.reverse :: pySplitWsAux rest []
    else pySplitWsAux rest (c :: acc)

def pySplitWs (l : List Char) : List (List Char) := pySplitWsAux l []

/-- STREET_TYPES set of mn_scraper.py. -/
def STREET_TYPES : List String :=
  ["street", "st", "str", "avenue", "ave", "av", "road", "rd", "drive", "dr",
   "lane", "ln", "court", "ct", "circle", "cir", "boulevard", "blvd", "way",
   "place", "pl", "trail", "trl", "tr", "parkway", "pkwy", "highway", "hwy",
   "terrace", "ter", "path", "loop", "square", "sq", "crossing", "xing"]

/-- DIRECTIONS set of mn_scraper.py. -/
def DIRECTIONS : List String :=
  ["n", "s", "e", "w", "ne", "nw", "se", "sw", "north", "south", "east", "west"]

/-- The alternation words of the unit-line pattern
^(STE|SUITE|APT|APARTMENT|UNIT|#|FL|FLOOR|RM|ROOM|BLDG|BUILDING)\s*\.?\s*\d*
(case-insensitive).  Since \s*\.?\s*\d* matches the empty string, the pattern
matches a line iff one of the keywords is a prefix of the uppercased line. -/
def UNIT_KEYWORDS : List String :=
  ["STE", "SUITE", "APT", "APARTMENT", "UNIT", "#", "FL", "FLOOR", "RM",
   "ROOM", "BLDG", "BUILDING"]

def isUnitLine (l : List Char) : Bool :=
  UNIT_KEYWORDS.any (fun k => k.data.isPrefixOf (pyUpper l))

/-- Suffix after a candidate comma for the classification regex
^.+,\s*[A-Z]{2}\s+\d{5} : optional spaces, two letters, at least one space,
five digits (anything may follow — the regex is not end-anchored). -/
def cszZipSuffix (l : List Char) : Bool :=
  match l.dropWhile isPySpace with
  | a :: b :: rest =>
    isAlphaC a && isAlphaC b && !(rest.takeWhile isPySpace).isEmpty &&
    ((rest.dropWhile isPySpace).take 5).length == 5 &&
    ((rest.dropWhile isPySpace).take 5).all isDigitC
  | _ => false

/-- Suffix after a candidate comma for ^.+,\s*[A-Z]{2}\s*$ : optional spaces,
two letters, then only whitespace to the end. -/
def cszNoZipSuffix (l : List Char) : Bool :=
  match l.dropWhile isPySpace with
  | a :: b :: trail => isAlphaC a && isAlphaC b && trail.all isPySpace
  | _ => false

/-- Does some comma with at least one character before it have a suffix
satisfying p?  (The .+ before the comma may itself contain commas; address
lines never contain a newline, so . = any character here.) -/
def anyCommaSuffix (p : List Char → Bool) : Bool → List Char → Bool
  | _, [] => false
  | seen, c :: rest =>
    (seen && c = ',' && p rest) || anyCommaSuffix p true rest

def isCszZipLine (l : List Char) : Bool := anyCommaSuffix cszZipSuffix false l

def isCszNoZipLine (l : List Char) : Bool := anyCommaSuffix cszNoZipSuffix false l

/-- Lazy-group split for ^(.+?),...: the first comma with a nonempty prefix
whose suffix matches p wins; on failure the search continues at the next
comma (the lazy group absorbing the failed one). -/
def firstCommaSplit (p : List Char → Option β) : List Char → List Char → Option (List Char × β)
  | _, [] => none
  | pre, c :: rest =>
    if c = ',' ∧ pre ≠ [] then
      match p rest with
      | some b => some (pre.reverse, b)
      | none => firstCommaSplit p (c :: pre) rest
    else firstCommaSplit p (c :: pre) rest

/-- Payload for ^(.+?),\s*([A-Z]{2})\s+([\d\-–]+)$ : (state, zip). -/
def cszFullPayload (suf : List Char) : Option (List Char × List Char) :=
  match suf.dropWhile isPySpace with
  | a :: b :: rest =>
    if isAlphaC a ∧ isAlphaC b ∧ (rest.takeWhile isPySpace) ≠ [] ∧
       (rest.dropWhile isPySpace) ≠ [] ∧
       (rest.dropWhile isPySpace).all (fun c => isDigitC c || c.toNat = 45 || c.toNat = 8211) then
      some ([a, b], rest.dropWhile isPySpace)
    else none
  | _ => none

/-- Payload for ^(.+?),\s*([A-Z]{2})$ : the two state letters, end-anchored
with no trailing whitespace allowed. -/
def cszStatePayload (suf : List Char) : Option (List Char) :=
  match suf.dropWhile isPySpace with
  | [a, b] => if isAlphaC a ∧ isAlphaC b then some [a, b] else none
  | _ => none

/-- ZIP normalization: en-dash to ASCII hyphen. -/
def normalizeZip (z : List Char) : List Char :=
  z.map (fun c => if c.toNat = 8211 then '-' else c)

/-- The eight-field result dictionary; every field defaults to "". -/
structure AddressParts where
  street_number : String := ""
  street_name : String := ""
  street_type : String := ""
  street_direction : String := ""
  unit : String := ""
  city : String := ""
  state : String := ""
  zip : String := ""
deriving DecidableEq, Repr

/-- STEP 4, the street-number regex ^(\d+[-\d]*)\s+(.+)$ : the maximal run
of digits/hyphens starting with a digit, then mandatory whitespace, then a
nonempty remainder.  (When nothing follows the whitespace the regex engine
backtracks one whitespace character into the remainder group; lines are
stripped at every call site so that branch is never taken, but it is kept
for fidelity to the regex.) -/
def streetNumberSplit (l : List Char) : Option (List Char × List Char) :=
  match l with
  | c :: _ =>
    if isDigitC c then
      let run := l.takeWhile (fun x => isDigitC x || x.toNat = 45)
      let rest := l.dropWhile (fun x => isDigitC x || x.toNat = 45)
      let sp := rest.takeWhile isPySpace
      let after := rest.dropWhile isPySpace
      if sp = [] then none
      else if after ≠ [] then some (run, after)
      else if 2 ≤ sp.length then some (run, sp.drop (sp.length - 1))
      else none
    else none
  | [] => none

/-- STEP 4 of parse_address: decompose the street line. -/
def parseStreetLine (l : List Char) (r : AddressParts) : AddressParts :=
  let numRem :=
    match streetNumberSplit l with
    | some (n, rem) => (some n, rem)
    | none => ((none : Option (List Char)), l)
  let r1 :=
    match numRem.1 with
    | some n => { r with street_number := String.mk n }
    | none => r
  let words0 := pySplitWs numRem.2
  let dirStep :=
    match words0.getLast? with
    | some w =>
      if String.mk (pyLower w) ∈ DIRECTIONS then
        ({ r1 with street_direction := String.mk (pyUpper w) }, words0.dropLast)
      else (r1, words0)
    | none => (r1, words0)
  let typeStep :=
    match dirStep.2.getLast? with
    | some w =>
      if String.mk (pyLower w) ∈ STREET_TYPES then
        ({ dirStep.1 with street_type := String.mk w }, dirStep.2.dropLast)
      else (dirStep.1, dirStep.2)
    | none => (dirStep.1, dirStep.2)
  if typeStep.2 = [] then typeStep.1
  else { typeStep.1 with street_name := String.mk (List.intercalate [' '] typeStep.2) }

/-- STEP 5 of parse_address: decompose the city/state/zip line. -/
def parseCszLine (l : List Char) (r : AddressParts) : AddressParts :=
  match firstCommaSplit cszFullPayload [] l with
  | some (city, stzip) =>
    { r with city := String.mk (pyStrip city),
             state := String.mk (pyUpper stzip.1),
             zip := String.mk (normalizeZip stzip.2) }
  | none =>
    match firstCommaSplit cszStatePayload [] l with
    | some (city, st) =>
      { r with city := String.mk (pyStrip city), state := String.mk (pyUpper st) }
    | none => { r with city := String.mk l }

/-- The running assignment of STEP 3's loop; a field holds [] while the
corresponding line is unassigned (mirroring Python's falsy ''). -/
structure LineClassState where
  street_line : List Char
  unit_line : List Char
  csz_line : List Char
deriving DecidableEq, Repr

/-- One iteration of STEP 3's for-loop over the lines. -/
def classifyStep (st : LineClassState) (line : List Char) : LineClassState :=
  if isCszZipLine line then { st with csz_line := line }
  else if isCszNoZipLine line then { st with csz_line := line }
  else if isUnitLine line then { st with unit_line := line }
  else if st.street_line = [] then { st with street_line := line }
  else st

def classifyLines (ls : List (List Char)) : LineClassState :=
  ls.foldl classifyStep ⟨[], [], []⟩

/-- The three line classes of STEP 3, as the loop's guards test them. -/
def isCszClass (l : List Char) : Bool := isCszZipLine l || isCszNoZipLine l

def isUnitClass (l : List Char) : Bool := !(isCszClass l) && isUnitLine l

def isStreetClass (l : List Char) : Bool := !(isCszClass l) && !(isUnitLine l)

/-- STEPS 1–2 of parse_address: strip, split into stripped non-empty lines,
drop country lines, and split a single comma-joined line at its first comma
into street + remainder. -/
def addressLines (s : String) : List (List Char) :=
  let lines1 := ((splitOnChar '\n' (pyStrip s.data)).map pyStrip).filter (· ≠ [])
  let lines2 := lines1.filter
    (fun l => ¬ (String.mk (pyUpper l) ∈ (["USA", "US", "UNITED STATES"] : List String)))
  match lines2 with
  | [l] =>
    if ',' ∈ l then
      match splitOnChar ',' l with
      | p0 :: ptail =>
        if 1 ≤ ptail.length then
          [pyStrip p0, pyStrip (List.intercalate [','] ptail)]
        else lines2
      | [] => lines2
    else lines2
  | _ => lines2

/-- mn_scraper.parse_address on a non-empty string argument. -/
def parse_address_core (s : String) : AddressParts :=
  let cls := classifyLines (addressLines s)
  let r1 := if cls.street_line ≠ [] then parseStreetLine cls.street_line {} else {}
  let r2 := if cls.unit_line ≠ [] then { r1 with unit := String.mk cls.unit_line } else r1
  if cls.csz_line ≠ [] then parseCszLine cls.csz_line r2 else r2

/-- parse_address at the Python call boundary: the falsy guard
`if not address_str: return result` runs before any method call on the
argument, so a None argument returns the all-empty record and no exception
can escape. -/
def parse_address (a : Option String) : Except String AddressParts :=
  match a with
  | none => .ok {}
  | some s => if s = "" then .ok {} else .ok (parse_address_core s)

/-! ## Scrape loop (MNBusinessScraper.run), worker save filter, merge,
partitioning, resume -/

/-- The fields of the extracted record dictionary that the claims mention;
extract_business_data populates ~55 fields, all defaulted to '', of which
only these participate in any claim. -/
structure BusinessRecord where
  file_number : Nat
  business_name : String
  business_type : String
  filing_date : String
deriving DecidableEq, Repr

/-- What the website presents for one file-number probe: the observable
inputs of search_by_file_number and of the extraction passes. -/
structure ProbeOutcome where
  noResultsText : Bool
  resultsName : String
  hasDetailsLink : Bool
  urlHasDetails : Bool
  businessType : String
  filingDate : String
deriving DecidableEq, Repr

/-- mn_scraper.search_by_file_number: a no-results body text is a miss; a
details link (or already being on a details URL) is a hit, carrying whatever
name text the results row offered ('' when absent). -/
def search_by_file_number (p : ProbeOutcome) : Bool × String :=
  if p.noResultsText then (false, "")
  else if p.hasDetailsLink then (true, p.resultsName)
  else if p.urlHasDetails then (true, p.resultsName)
  else (false, "")

/-- mn_scraper.extract_business_data restricted to the claim-relevant
fields; every field starts '' and is filled from the page when located. -/
def extract_business_data (fileNumber : Nat) (businessName : String)
    (p : ProbeOutcome) : BusinessRecord :=
  { file_number := fileNumber, business_name := businessName,
    business_type := p.businessType, filing_date := p.filingDate }

/-- mn_scraper.scrape_business: search then extract; None iff not found.
(The retry wrapper re-attempts on exceptions only; exceptions are outside
this model, so one attempt decides.) -/
def scrape_business (p : ProbeOutcome) (fileNumber : Nat) : Option BusinessRecord :=
  let fr := search_by_file_number p
  if fr.1 then some (extract_business_data fileNumber fr.2 p) else none

/-- config.MAX_CONSECUTIVE_MISSES. -/
def MAX_CONSECUTIVE_MISSES : Nat := 100

/-- The mutable state of MNBusinessScraper.run's main loop together with the
rows appended to the CSV sink so far. -/
structure RunState where
  current_file_number : Nat
  consecutive_misses : Nat
  sink : List BusinessRecord
  scraped_count : Nat
deriving DecidableEq, Repr

/-- One iteration of the `while self.consecutive_misses < MAX` body: a found
dict (always truthy) is appended and resets the miss counter; a miss
increments it; the file number always advances. -/
def runStep (env : Nat → ProbeOutcome) (s : RunState) : RunState :=
  match scrape_business (env s.current_file_number) s.current_file_number with
  | some data =>
    { s with sink := s.sink ++ [data], scraped_count := s.scraped_count + 1,
             consecutive_misses := 0,
             current_file_number := s.current_file_number + 1 }
  | none =>
    { s with consecutive_misses := s.consecutive_misses + 1,
             current_file_number := s.current_file_number + 1 }

/-- The main loop, fuelled: while consecutive_misses < MAX_CONSECUTIVE_MISSES
keep stepping. -/
def runLoop (env : Nat → ProbeOutcome) : Nat → RunState → RunState
  | 0, s => s
  | fuel + 1, s =>
    if s.consecutive_misses < MAX_CONSECUTIVE_MISSES then
      runLoop env fuel (runStep env s)
    else s

def initRunState (start : Nat) : RunState :=
  { current_file_number := start, consecutive_misses := 0, sink := [],
    scraped_count := 0 }

/-- search_by_name_parallel.TARGET_YEARS (default). -/
def TARGET_YEARS : List String := ["2023"]

/-- search_by_name_parallel.TARGET_BUSINESS_TYPES. -/
def TARGET_BUSINESS_TYPES : List String :=
  ["Limited Liability Company (Domestic)", "Limited Liability Company (Foreign)",
   "Business Corporation (Domestic)", "Business Corporation (Foreign)",
   "Nonprofit Corporation (Domestic)", "Nonprofit Corporation (Foreign)"]

/-- The save condition of search_by_name_parallel.worker_scrape: a detail
record reaches the worker's sink iff its filing year (first four characters
of filing_date, '' when the date is empty) is a target year AND its
business_type is one of the exact target types. -/
def worker_saves (r : BusinessRecord) : Bool :=
  let filing_year := if r.filing_date = "" then "" else r.filing_date.take 4
  decide (filing_year ∈ TARGET_YEARS) && decide (r.business_type ∈ TARGET_BUSINESS_TYPES)

/-! ## Consolidation (merge_results.merge_worker_outputs,
export_to_github.merge_csv_files) -/

/-- pandas drop_duplicates(subset=['file_number'], keep='first'): keep the
first occurrence of each key, in order. -/
def dropDupFirstAux (seen : List Nat) : List BusinessRecord → List BusinessRecord
  | [] => []
  | r :: rest =>
    if r.file_number ∈ seen then dropDupFirstAux seen rest
    else r :: dropDupFirstAux (r.file_number :: seen) rest

def dropDupFirst (rows : List BusinessRecord) : List BusinessRecord :=
  dropDupFirstAux [] rows

/-- pandas drop_duplicates(subset=['file_number'], keep='last'): keep the
last occurrence of each key, in order. -/
def dropDupLast : List BusinessRecord → List BusinessRecord
  | [] => []
  | r :: rest =>
    if r.file_number ∈ rest.map (fun x => x.file_number) then dropDupLast rest
    else r :: dropDupLast rest

def insertByKey (r : BusinessRecord) : List BusinessRecord → List BusinessRecord
  | [] => [r]
  | x :: xs =>
    if r.file_number ≤ x.file_number then r :: x :: xs else x :: insertByKey r xs

/-- pandas sort_values('file_number') (keys are unique after dedup, so any
sort gives the same list). -/
def sortByKey : List BusinessRecord → List BusinessRecord
  | [] => []
  | r :: rest => insertByKey r (sortByKey rest)

/-- merge_results.merge_worker_outputs: concat the worker frames in file
order, drop duplicate keys KEEPING THE FIRST occurrence, sort by key. -/
def merge_worker_outputs (dfs : List (List BusinessRecord)) : List BusinessRecord :=
  sortByKey (dropDupFirst dfs.flatten)

/-- export_to_github.merge_csv_files: concat the frames in order, drop
duplicate keys keeping the last occurrence. -/
def merge_csv_files (dfs : List (List BusinessRecord)) : List BusinessRecord :=
  dropDupLast dfs.flatten

/-! ## Worker partitioning (mn_scraper_parallel.run_parallel,
search_by_name_parallel.run_parallel) -/

/-- The inclusive integer range [s, e] as an ordered key list. -/
def intKeys (s e : Int) : List Int :=
  (List.range (e + 1 - s).toNat).map (fun j => s + Int.ofNat j)

/-- mn_scraper_parallel.run_parallel's range computation: chunk_size =
total_range // num_workers; worker i starts at total_start + i*chunk_size;
the last worker's end is total_end, every other worker ends one before the
next start. -/
def workerRanges (numWorkers : Nat) (totalStart totalEnd : Int) : List (Int × Int) :=
  let chunkSize := (totalEnd - totalStart + 1) / (numWorkers : Int)
  (List.range numWorkers).map (fun i =>
    let s := totalStart + Int.ofNat i * chunkSize
    if i = numWorkers - 1 then (s, totalEnd) else (s, s + chunkSize - 1))

def asciiLowercase : List Char := "abcdefghijklmnopqrstuvwxyz".data

/-- search_by_name_parallel.generate_patterns: the 676 two-letter tokens
'aa'..'zz' in lexicographic order. -/
def generate_patterns : List String :=
  (asciiLowercase.map (fun a => asciiLowercase.map (fun b => String.mk [a, b]))).flatten

/-- search_by_name_parallel.run_parallel's slicing: chunk_size =
len(patterns) // num_workers; worker i gets patterns[i*chunk : (i+1)*chunk],
the last worker patterns[(N-1)*chunk :]. -/
def workerPatterns (numWorkers : Nat) (patterns : List String) : List (List String) :=
  let chunkSize := patterns.length / numWorkers
  (List.range numWorkers).map (fun i =>
    if i = numWorkers - 1 then patterns.drop (i * chunkSize)
    else (patterns.drop (i * chunkSize)).take chunkSize)

/-! ## Resume (mn_scraper_parallel.scrape_range) -/

/-- The rows a worker appends while scanning keys lo..hi (inclusive) against
environment env (env k = the record scrape_business yields at key k, None on
a miss). -/
def sinkOf (env : Nat → Option BusinessRecord) (lo hi : Nat) : List BusinessRecord :=
  (List.range' lo (hi + 1 - lo)).filterMap env

/-- scrape_range's resume computation: with a progress file holding
last_file_number = saved, restart at saved + 1 when start <= saved < end,
otherwise from start. -/
def resumeStart (start endNum : Nat) (progress : Option Nat) : Nat :=
  match progress with
  | some saved => if start ≤ saved ∧ saved < endNum then saved + 1 else start
  | none => start

/-! ## Helper lemmas: strip and shape -/

theorem data_mk (l : List Char) : (String.mk l).data = l := rfl

theorem dropWhile_dropWhile (p : α → Bool) (l : List α) :
    (l.dropWhile p).dropWhile p = l.dropWhile p := by
  induction l with
  | nil => rfl
  | cons a t ih =>
    by_cases h : p a
    · simp [List.dropWhile_cons, h, ih]
    · simp [List.dropWhile_cons, h]

theorem head_dropWhile_false (p : α → Bool) (l : List α) (c : α) (t : List α)
    (h : l.dropWhile p = c :: t) : p c = false := by
  induction l with
  | nil => simp at h
  | cons a s ih =>
    by_cases hp : p a
    · rw [List.dropWhile_cons, if_pos hp] at h
      exact ih h
    · rw [List.dropWhile_cons, if_neg hp] at h
      cases h
      simpa using hp

theorem getLast_dropWhile (p : α → Bool) (l : List α) (h : l.dropWhile p ≠ []) :
    (l.dropWhile p).getLast? = l.getLast? := by
  induction l with
  | nil => simp at h
  | cons a t ih =>
    by_cases hp : p a
    · rw [List.dropWhile_cons, if_pos hp] at h ⊢
      have ht : t ≠ [] := by
        intro he
        rw [he] at h
        simp at h
      rcases t with _ | ⟨b, u⟩
      · simp at ht
      · rw [List.getLast?_cons_cons]
        exact ih h
    · rw [List.dropWhile_cons, if_neg hp]

theorem dropWhile_eq_self_of (p : α → Bool) (l : List α)
    (h : ∀ c ∈ l, p c = false) : l.dropWhile p = l := by
  cases l with
  | nil => rfl
  | cons a t => rw [List.dropWhile_cons, if_neg (by simp [h a (by simp)])]

theorem pyStrip_of_no_space (l : List Char) (h : ∀ c ∈ l, isPySpace c = false) :
    pyStrip l = l := by
  unfold pyStrip dropTrailingWhile
  rw [dropWhile_eq_self_of _ _ h,
      dropWhile_eq_self_of _ _ (fun c hc => h c (List.mem_reverse.mp hc)),
      List.reverse_reverse]

theorem pyStrip_pyStrip (l : List Char) : pyStrip (pyStrip l) = pyStrip l := by
  unfold pyStrip dropTrailingWhile
  have hyd : ((l.dropWhile isPySpace).reverse.dropWhile isPySpace).dropWhile isPySpace
      = (l.dropWhile isPySpace).reverse.dropWhile isPySpace :=
    dropWhile_dropWhile _ _
  have hx : ((l.dropWhile isPySpace).reverse.dropWhile isPySpace).reverse.dropWhile isPySpace
      = ((l.dropWhile isPySpace).reverse.dropWhile isPySpace).reverse := by
    rcases hyrev : ((l.dropWhile isPySpace).reverse.dropWhile isPySpace).reverse with _ | ⟨c, t⟩
    · simp
    · have hyne : (l.dropWhile isPySpace).reverse.dropWhile isPySpace ≠ [] := by
        intro h0
        rw [h0] at hyrev
        simp at hyrev
      have h1 : ((l.dropWhile isPySpace).reverse.dropWhile isPySpace).getLast?
          = ((l.dropWhile isPySpace).reverse).getLast? :=
        getLast_dropWhile _ _ hyne
      have h2 : ((l.dropWhile isPySpace).reverse).getLast? = (l.dropWhile isPySpace).head? := by
        simp [List.getLast?_reverse]
      have h3 : ((l.dropWhile isPySpace).reverse.dropWhile isPySpace).getLast? = some c := by
        have h4 := congrArg List.reverse hyrev
        rw [List.reverse_reverse] at h4
        rw [h4]
        simp [List.getLast?_reverse]
      have hm : (l.dropWhile isPySpace).head? = some c := by
        rw [← h2, ← h1, h3]
      have hcfalse : isPySpace c = false := by
        rcases hml : l.dropWhile isPySpace with _ | ⟨c0, t0⟩
        · rw [hml] at hm
          simp at hm
        · rw [hml] at hm
          simp at hm
          rw [← hm]
          exact head_dropWhile_false _ _ _ _ hml
      rw [List.dropWhile_cons, if_neg (by simp [hcfalse])]
  rw [hx, List.reverse_reverse, hyd]

theorem isDigitC_spec (c : Char) (h : isDigitC c = true) :
    48 ≤ c.toNat ∧ c.toNat ≤ 57 := by
  simp [isDigitC] at h
  exact h

theorem isDigitC_digitChar (n : Nat) : isDigitC (digitChar n) = true := by
  unfold digitChar
  repeat' split
  all_goals decide

theorem isPySpace_false_of_digit (c : Char) (h : isDigitC c = true) :
    isPySpace c = false := by
  obtain ⟨h1, h2⟩ := isDigitC_spec c h
  simp [isPySpace]
  omega

theorem isPySpace_false_of_dash (c : Char) (h : c.toNat = 45) :
    isPySpace c = false := by
  simp [isPySpace]
  omega

theorem parse_none_three (a b c : Char) (rest : List Char)
    (ha : isDigitC a = true) (hb : isDigitC b = true) (hc : isDigitC c = true) :
    parseMMDDYYYY (a :: b :: c :: rest) = none := by
  obtain ⟨ha1, ha2⟩ := isDigitC_spec a ha
  obtain ⟨hb1, hb2⟩ := isDigitC_spec b hb
  obtain ⟨hc1, hc2⟩ := isDigitC_spec c hc
  simp only [parseMMDDYYYY, matchMonth]
  split_ifs with h1 h2 h3
  · simp [matchSlash, show ¬ c.toNat = 47 by omega]
  · simp [matchSlash, show ¬ c.toNat = 47 by omega]
  · simp [matchSlash, show ¬ b.toNat = 47 by omega]
  · simp

theorem isoShape10_length (l : List Char) (h : isoShape10 l = true) :
    10 ≤ l.length := by
  unfold isoShape10 at h
  split at h
  · simp
  · simp at h

theorem isoShape_formatISO (y m d : Nat) : isoShape10 (formatISO y m d) = true := by
  simp [formatISO, pad4, pad2, isoShape10, isDigitC_digitChar]

theorem length_formatISO (y m d : Nat) : (formatISO y m d).length = 10 := by
  simp [formatISO, pad4, pad2]

theorem convert_empty (s : String) (h : pyStrip s.data = []) :
    convert_date_to_iso s = "" := by
  unfold convert_date_to_iso
  simp [h]

theorem convert_parsed (s : String) (m d y : Nat)
    (h : parseMMDDYYYY (pyStrip s.data) = some (m, d, y)) :
    convert_date_to_iso s = String.mk (formatISO y m d) := by
  have hne : pyStrip s.data ≠ [] := by
    intro he
    rw [he] at h
    simp [parseMMDDYYYY, matchMonth] at h
  unfold convert_date_to_iso
  simp [hne, h]

theorem convert_iso_trunc (s : String)
    (hp : parseMMDDYYYY (pyStrip s.data) = none)
    (hs : isoShape10 ((pyStrip s.data).take 10) = true)
    (hne : pyStrip s.data ≠ []) :
    convert_date_to_iso s = String.mk ((pyStrip s.data).take 10) := by
  unfold convert_date_to_iso
  simp [hne, hp, hs]

theorem convert_fallback (s : String)
    (hp : parseMMDDYYYY (pyStrip s.data) = none)
    (hs : isoShape10 ((pyStrip s.data).take 10) = false)
    (hne : pyStrip s.data ≠ []) :
    convert_date_to_iso s = String.mk (pyStrip s.data) := by
  unfold convert_date_to_iso
  simp [hne, hp, hs]

theorem iso_fixed (l : List Char) (hs : isoShape10 l = true) (hl : l.length = 10) :
    convert_date_to_iso (String.mk l) = String.mk l := by
  rcases l with _ | ⟨a, _ | ⟨b, _ | ⟨c, _ | ⟨d, _ | ⟨e, _ | ⟨f, _ | ⟨g, _ | ⟨hh, _ | ⟨i, _ | ⟨j, rest⟩⟩⟩⟩⟩⟩⟩⟩⟩⟩ <;>
    try simp [isoShape10] at hs
  have hrest : rest = [] := by
    simp at hl
    exact hl
  subst hrest
  obtain ⟨⟨⟨⟨⟨⟨⟨⟨⟨ha, hb⟩, hc⟩, hd⟩, he⟩, hf⟩, hg⟩, hh2⟩, hi⟩, hj⟩ := hs
  have hns : pyStrip [a, b, c, d, e, f, g, hh, i, j] = [a, b, c, d, e, f, g, hh, i, j] := by
    apply pyStrip_of_no_space
    intro x hx
    simp at hx
    rcases hx with rfl | rfl | rfl | rfl | rfl | rfl | rfl | rfl | rfl | rfl
    · exact isPySpace_false_of_digit _ ha
    · exact isPySpace_false_of_digit _ hb
    · exact isPySpace_false_of_digit _ hc
    · exact isPySpace_false_of_digit _ hd
    · exact isPySpace_false_of_dash _ he
    · exact isPySpace_false_of_digit _ hf
    · exact isPySpace_false_of_digit _ hg
    · exact isPySpace_false_of_dash _ hh2
    · exact isPySpace_false_of_digit _ hi
    · exact isPySpace_false_of_digit _ hj
  have hp : parseMMDDYYYY [a, b, c, d, e, f, g, hh, i, j] = none :=
    parse_none_three a b c [d, e, f, g, hh, i, j] ha hb hc
  have htk : ([a, b, c, d, e, f, g, hh, i, j] : List Char).take 10
      = [a, b, c, d, e, f, g, hh, i, j] := rfl
  have hsh : isoShape10 [a, b, c, d, e, f, g, hh, i, j] = true := by
    simp [isoShape10, ha, hb, hc, hd, he, hf, hg, hh2, hi, hj]
  unfold convert_date_to_iso
  simp only [data_mk]
  rw [hns, hp]
  simp [htk, hsh]

/-- C5: convert_date_to_iso is idempotent: converting its own output again
changes nothing, for every input string. -/
theorem convert_date_to_iso_idempotent :
    ∀ s : String, convert_date_to_iso (convert_date_to_iso s) = convert_date_to_iso s := by
  intro s
  by_cases h0 : pyStrip s.data = []
  · rw [convert_empty s h0, convert_empty "" (by decide)]
  · rcases hp : parseMMDDYYYY (pyStrip s.data) with _ | ⟨m, d, y⟩
    · by_cases hsh : isoShape10 ((pyStrip s.data).take 10) = true
      · rw [convert_iso_trunc s hp hsh h0]
        apply iso_fixed _ hsh
        have h1 := isoShape10_length _ hsh
        have h2 : ((pyStrip s.data).take 10).length = min 10 (pyStrip s.data).length := by
          simp
        omega
      · rw [convert_fallback s hp (by simpa using hsh) h0]
        have hpp : pyStrip (String.mk (pyStrip s.data)).data = pyStrip s.data := by
          rw [data_mk]
          exact pyStrip_pyStrip _
        rw [convert_fallback (String.mk (pyStrip s.data)) (by rw [hpp]; exact hp)
              (by rw [hpp]; simpa using hsh) (by rw [hpp]; exact h0), hpp]
    · rw [convert_parsed s m d y hp]
      exact iso_fixed _ (isoShape_formatISO y m d) (length_formatISO y m d)

/-- C6 counterexample: an input carrying surrounding whitespace that no rule
parses is NOT returned unchanged — the code returns the stripped text. -/
theorem convert_date_counterexample :
    convert_date_to_iso " January 15, 2024 " = "January 15, 2024" ∧
    (" January 15, 2024 " : String) ≠ "January 15, 2024" := by
  constructor
  · decide
  · decide

/-- C6 (amended): rules are applied to the whitespace-trimmed input, in the
order empty, MM/DD/YYYY parse, leading-ISO truncation, fallback returning
the trimmed text; all four spec examples hold. -/
theorem convert_date_rule_precedence :
    (∀ s : String, pyStrip s.data = [] → convert_date_to_iso s = "") ∧
    (∀ (s : String) (m d y : Nat), parseMMDDYYYY (pyStrip s.data) = some (m, d, y) →
      convert_date_to_iso s = String.mk (formatISO y m d)) ∧
    (∀ s : String, parseMMDDYYYY (pyStrip s.data) = none →
      isoShape10 ((pyStrip s.data).take 10) = true →
      convert_date_to_iso s = String.mk ((pyStrip s.data).take 10)) ∧
    (∀ s : String, pyStrip s.data ≠ [] → parseMMDDYYYY (pyStrip s.data) = none →
      isoShape10 ((pyStrip s.data).take 10) = false →
      convert_date_to_iso s = String.mk (pyStrip s.data)) ∧
    convert_date_to_iso "01/15/2024" = "2024-01-15" ∧
    convert_date_to_iso "2024-01-15T10:30:00" = "2024-01-15" ∧
    convert_date_to_iso "" = "" ∧
    convert_date_to_iso "January 15, 2024" = "January 15, 2024" := by
  refine ⟨convert_empty, fun s m d y h => convert_parsed s m d y h, ?_, ?_,
    by decide, by decide, by decide, by decide⟩
  · intro s hp hsh
    have hne : pyStrip s.data ≠ [] := by
      intro he
      rw [he] at hsh
      simp [isoShape10] at hsh
    exact convert_iso_trunc s hp hsh hne
  · intro s hne hp hsh
    exact convert_fallback s hp hsh hne

/-- Witness for C6 at concrete inputs: the empty rule at a whitespace-only
string, the fallback rule at an unparseable string. -/
theorem convert_date_rule_precedence_witness :
    convert_date_to_iso " " = "" ∧
    convert_date_to_iso "abc" = String.mk (pyStrip "abc".data) := by
  constructor
  · exact convert_date_rule_precedence.1 " " (by decide)
  · exact convert_date_rule_precedence.2.2.2.1 "abc" (by decide) (by decide) (by decide)

/-- C10: calendar validation happens only on the slash path — any trimmed
input failing the MM/DD/YYYY parse whose first ten characters have the
NNNN-NN-NN digit shape is truncated to those ten characters with no range
check ('9999-99-99T00:00' gives '9999-99-99'), while slash-format inputs
with out-of-range components fail the calendar parse and come back
unchanged. -/
theorem convert_date_shape_only_validation :
    (∀ s : String, parseMMDDYYYY (pyStrip s.data) = none →
      isoShape10 ((pyStrip s.data).take 10) = true →
      convert_date_to_iso s = String.mk ((pyStrip s.data).take 10)) ∧
    convert_date_to_iso "9999-99-99T00:00" = "9999-99-99" ∧
    convert_date_to_iso "02/30/2024" = "02/30/2024" ∧
    convert_date_to_iso "13/01/2024" = "13/01/2024" := by
  refine ⟨?_, by decide, by decide, by decide⟩
  intro s hp hsh
  have hne : pyStrip s.data ≠ [] := by
    intro he
    rw [he] at hsh
    simp [isoShape10] at hsh
  exact convert_iso_trunc s hp hsh hne

/-- Witness for C10: the truncation rule applied at '9999-99-99T00:00'. -/
theorem convert_date_shape_only_validation_witness :
    convert_date_to_iso "9999-99-99T00:00"
      = String.mk ((pyStrip "9999-99-99T00:00".data).take 10) :=
  convert_date_shape_only_validation.1 "9999-99-99T00:00" (by decide) (by decide)

/-- C4: parse_address and convert_date_to_iso are total at the Python call
boundary — every input, including None and empty or whitespace-only strings,
yields a value and never an exception; parse_address always returns the
eight-field record whose fields default to the empty string. -/
theorem parse_and_convert_total :
    (∀ a : Option String, ∃ r, parse_address a = Except.ok r) ∧
    (∀ a : Option String, ∃ v, convert_date_to_iso_checked a = Except.ok v) ∧
    parse_address none = Except.ok {} ∧
    parse_address (some "") = Except.ok {} ∧
    parse_address (some "   ") = Except.ok {} ∧
    convert_date_to_iso_checked none = Except.ok "" ∧
    convert_date_to_iso_checked (some "") = Except.ok "" ∧
    convert_date_to_iso_checked (some "  ") = Except.ok "" ∧
    ({} : AddressParts).street_number = "" ∧
    ({} : AddressParts).street_name = "" ∧
    ({} : AddressParts).street_type = "" ∧
    ({} : AddressParts).street_direction = "" ∧
    ({} : AddressParts).unit = "" ∧
    ({} : AddressParts).city = "" ∧
    ({} : AddressParts).state = "" ∧
    ({} : AddressParts).zip = "" := by
  refine ⟨?_, ?_, rfl, rfl, rfl, rfl, rfl, rfl,
    rfl, rfl, rfl, rfl, rfl, rfl, rfl, rfl⟩
  · intro a
    match a with
    | none => exact ⟨{}, rfl⟩
    | some s =>
      by_cases h : s = ""
      · exact ⟨{}, by simp [parse_address, h]⟩
      · exact ⟨parse_address_core s, by simp [parse_address, h]⟩
  · intro a
    match a with
    | none => exact ⟨"", rfl⟩
    | some s => exact ⟨convert_date_to_iso s, rfl⟩

theorem getLastD_cons : ∀ (f : List α) (a d : α),
    ((a :: f).getLast?).getD d = (f.getLast?).getD a
  | [], a, d => by simp
  | b :: u, a, d => by
    rw [List.getLast?_cons_cons, getLastD_cons u b d, getLastD_cons u b a]

theorem classifyFold_spec (ls : List (List Char)) :
    ∀ st : LineClassState, (∀ l ∈ ls, l ≠ []) →
    ls.foldl classifyStep st =
      { street_line :=
          if st.street_line = [] then ((ls.filter isStreetClass).head?).getD []
          else st.street_line,
        unit_line := ((ls.filter isUnitClass).getLast?).getD st.unit_line,
        csz_line := ((ls.filter isCszClass).getLast?).getD st.csz_line } := by
  induction ls with
  | nil =>
    intro st h
    rcases st with ⟨s1, s2, s3⟩
    by_cases hs : s1 = [] <;> simp [hs]
  | cons l rest ih =>
    intro st h
    have hl : l ≠ [] := h l (by simp)
    have hrest : ∀ x ∈ rest, x ≠ [] := fun x hx => h x (by simp [hx])
    rw [List.foldl_cons, ih _ hrest]
    by_cases hz : isCszZipLine l = true
    · have hcs : isCszClass l = true := by simp [isCszClass, hz]
      simp [classifyStep, hz, List.filter_cons, hcs, isUnitClass, isStreetClass,
        getLastD_cons]
    · by_cases hnz : isCszNoZipLine l = true
      · have hcs : isCszClass l = true := by simp [isCszClass, hnz]
        simp [classifyStep, hz, hnz, List.filter_cons, hcs, isUnitClass, isStreetClass,
          getLastD_cons]
      · have hcs : isCszClass l = false := by simp [isCszClass, hz, hnz]
        by_cases hu : isUnitLine l = true
        · simp [classifyStep, hz, hnz, hu, List.filter_cons, hcs, isUnitClass,
            isStreetClass, getLastD_cons]
        · by_cases hss : st.street_line = []
          · simp [classifyStep, hz, hnz, hu, hss, List.filter_cons, hcs, isUnitClass,
              isStreetClass, hl]
          · simp [classifyStep, hz, hnz, hu, hss, List.filter_cons, hcs, isUnitClass,
              isStreetClass]

/-- C2 counterexample: an address with two unit lines keeps the LAST one —
the later unit line overwrites the earlier, refuting first-unit-wins. -/
theorem parse_address_last_unit_counterexample :
    (parse_address_core "123 Main St\nSte 100\nSte 200\nMinneapolis, MN 55401").unit
        = "Ste 200" ∧
    ("Ste 200" : String) ≠ "Ste 100" := by
  constructor
  · decide
  · decide

/-- C2 (amended): over non-empty classified lines, STEP 3 keeps the FIRST
street-class line (later street lines are silently discarded) but the LAST
unit-class and LAST city/state/zip-class line (each later occurrence
overwrites the earlier one). -/
theorem classify_first_street_last_unit :
    ∀ ls : List (List Char), (∀ l ∈ ls, l ≠ []) →
      classifyLines ls =
        { street_line := ((ls.filter isStreetClass).head?).getD [],
          unit_line := ((ls.filter isUnitClass).getLast?).getD [],
          csz_line := ((ls.filter isCszClass).getLast?).getD [] } := by
  intro ls h
  rw [classifyLines, classifyFold_spec ls ⟨[], [], []⟩ h]
  simp

/-- Witness for C2 at the concrete three-line input: the street slot takes
the first street line, the unit slot the last unit line. -/
theorem classify_first_street_last_unit_witness :
    (classifyLines ["123 Main St".data, "Ste 100".data, "Ste 200".data]).unit_line
      = "Ste 200".data ∧
    (classifyLines ["123 Main St".data, "Ste 100".data, "Ste 200".data]).street_line
      = "123 Main St".data := by
  have h := classify_first_street_last_unit
    ["123 Main St".data, "Ste 100".data, "Ste 200".data] (by decide)
  rw [h]
  constructor
  · decide
  · decide

theorem filter_dropDupFirstAux (k : Nat) :
    ∀ (l : List BusinessRecord) (seen : List Nat),
    (dropDupFirstAux seen l).filter (fun r => r.file_number == k)
      = if k ∈ seen then []
        else ((l.filter (fun r => r.file_number == k)).head?).toList := by
  intro l
  induction l with
  | nil =>
    intro seen
    by_cases h : k ∈ seen <;> simp [dropDupFirstAux, h]
  | cons r rest ih =>
    intro seen
    by_cases hmem : r.file_number ∈ seen
    · rw [dropDupFirstAux, if_pos hmem, ih seen]
      by_cases hk : k ∈ seen
      · simp [hk]
      · have hrk : ¬ (r.file_number = k) := by
          intro he
          exact hk (he ▸ hmem)
        simp [hk, List.filter_cons, hrk]
    · rw [dropDupFirstAux, if_neg hmem, List.filter_cons, ih (r.file_number :: seen)]
      by_cases hrk : r.file_number = k
      · have hkseen : ¬ k ∈ seen := fun h => hmem (hrk ▸ h)
        simp [hrk, hkseen, List.filter_cons]
      · have hkr : ¬ k = r.file_number := fun h => hrk h.symm
        by_cases hk : k ∈ seen
        · simp [hk, hrk, hkr, List.mem_cons]
        · simp [hk, hrk, hkr, List.mem_cons, List.filter_cons]

theorem filter_eq_nil_of_no_key (k : Nat) (l : List BusinessRecord)
    (h : ¬ k ∈ l.map (fun x => x.file_number)) :
    l.filter (fun r => r.file_number == k) = [] := by
  induction l with
  | nil => rfl
  | cons r rest ih =>
    simp only [List.map_cons, List.mem_cons] at h
    push_neg at h
    rw [List.filter_cons, if_neg (by simp; exact fun he => h.1 he.symm), ih h.2]

theorem filter_ne_nil_of_key (k : Nat) (l : List BusinessRecord)
    (h : k ∈ l.map (fun x => x.file_number)) :
    l.filter (fun r => r.file_number == k) ≠ [] := by
  induction l with
  | nil => simp at h
  | cons r rest ih =>
    simp only [List.map_cons, List.mem_cons] at h
    rw [List.filter_cons]
    by_cases hr : r.file_number = k
    · rw [if_pos (by simp [hr])]
      simp
    · have h2 : k ∈ rest.map (fun x => x.file_number) := by
        rcases h with h | h
        · exact absurd h.symm hr
        · exact h
      rw [if_neg (by simp [hr])]
      exact ih h2

theorem filter_dropDupLast (k : Nat) :
    ∀ l : List BusinessRecord,
    (dropDupLast l).filter (fun r => r.file_number == k)
      = ((l.filter (fun r => r.file_number == k)).getLast?).toList := by
  intro l
  induction l with
  | nil => rfl
  | cons r rest ih =>
    simp only [dropDupLast]
    by_cases hmem : r.file_number ∈ rest.map (fun x => x.file_number)
    · rw [if_pos hmem, ih, List.filter_cons]
      by_cases hr : r.file_number = k
      · rw [if_pos (by simp [hr])]
        have hne : rest.filter (fun r => r.file_number == k) ≠ [] :=
          filter_ne_nil_of_key k rest (hr ▸ hmem)
        rcases hf : rest.filter (fun r => r.file_number == k) with _ | ⟨x, u⟩
        · exact absurd hf hne
        · rw [hf, List.getLast?_cons_cons]
      · rw [if_neg (by simp [hr])]
    · rw [if_neg hmem, List.filter_cons]
      by_cases hr : r.file_number = k
      · rw [if_pos (by simp [hr]), List.filter_cons, if_pos (by simp [hr]), ih]
        have hnil : rest.filter (fun r => r.file_number == k) = [] :=
          filter_eq_nil_of_no_key k rest (hr ▸ hmem)
        rw [hnil]
        simp
      · rw [if_neg (by simp [hr]), List.filter_cons, if_neg (by simp [hr]), ih]

theorem mem_insertByKey (x r : BusinessRecord) :
    ∀ l : List BusinessRecord, (x ∈ insertByKey r l ↔ x ∈ r :: l)
  | [] => by simp [insertByKey]
  | y :: ys => by
    simp only [insertByKey]
    by_cases hle : r.file_number ≤ y.file_number
    · rw [if_pos hle]
    · rw [if_neg hle]
      simp only [List.mem_cons, mem_insertByKey x r ys]
      tauto

theorem countP_insertByKey (p : BusinessRecord → Bool) (r : BusinessRecord) :
    ∀ l : List BusinessRecord, (insertByKey r l).countP p = (r :: l).countP p
  | [] => rfl
  | y :: ys => by
    simp only [insertByKey]
    by_cases hle : r.file_number ≤ y.file_number
    · rw [if_pos hle]
    · rw [if_neg hle]
      simp only [List.countP_cons, countP_insertByKey p r ys]
      omega

theorem mem_sortByKey (x : BusinessRecord) :
    ∀ l : List BusinessRecord, (x ∈ sortByKey l ↔ x ∈ l)
  | [] => Iff.rfl
  | r :: rest => by
    simp only [sortByKey, mem_insertByKey, List.mem_cons, mem_sortByKey x rest]

theorem countP_sortByKey (p : BusinessRecord → Bool) :
    ∀ l : List BusinessRecord, (sortByKey l).countP p = l.countP p
  | [] => rfl
  | r :: rest => by
    simp only [sortByKey, countP_insertByKey, List.countP_cons, countP_sortByKey p rest]

theorem filter_sortByKey_of_le_one (p : BusinessRecord → Bool)
    (m : List BusinessRecord) (h : (m.filter p).length ≤ 1) :
    (sortByKey m).filter p = m.filter p := by
  have hl : ((sortByKey m).filter p).length = (m.filter p).length := by
    rw [← List.countP_eq_length_filter, ← List.countP_eq_length_filter,
        countP_sortByKey]
  rcases hf : m.filter p with _ | ⟨r, t⟩
  · rw [hf] at hl
    simp only [List.length_nil] at hl
    exact List.length_eq_zero.mp hl
  · have ht : t = [] := by
      rw [hf] at h
      simp only [List.length_cons] at h
      have : t.length = 0 := by omega
      exact List.length_eq_zero.mp this
    subst ht
    have hrm : r ∈ (sortByKey m).filter p := by
      have hr1 : r ∈ m.filter p := by rw [hf]; simp
      have hr2 : r ∈ m := (List.mem_filter.mp hr1).1
      exact List.mem_filter.mpr ⟨(mem_sortByKey r m).mpr hr2, (List.mem_filter.mp hr1).2⟩
    rw [hf] at hl
    rcases hg : (sortByKey m).filter p with _ | ⟨x, u⟩
    · rw [hg] at hrm
      simp at hrm
    · rw [hg] at hl hrm
      simp at hl
      have hu : u = [] := hl
      subst hu
      simp at hrm
      rw [hrm]

/-- C1 counterexample: two worker sinks both carrying file_number 42 with
different names — merge_worker_outputs keeps the FIRST-seen row, not the
later-merged one. -/
theorem merge_worker_outputs_keeps_first :
    merge_worker_outputs
        [[{ file_number := 42, business_name := "Alpha", business_type := "",
            filing_date := "" }],
         [{ file_number := 42, business_name := "Beta", business_type := "",
            filing_date := "" }]]
      = [{ file_number := 42, business_name := "Alpha", business_type := "",
           filing_date := "" }] ∧
    ({ file_number := 42, business_name := "Alpha", business_type := "",
       filing_date := "" } : BusinessRecord)
      ≠ { file_number := 42, business_name := "Beta", business_type := "",
          filing_date := "" } := by
  constructor
  · decide
  · decide

/-- C1 (amended): consolidation always leaves exactly one row per present
key, but the surviving row depends on the path: export_to_github's
merge_csv_files keeps the LAST-seen row (last-writer-wins), while
merge_results' merge_worker_outputs keeps the FIRST-seen row. -/
theorem consolidation_dedup_policy :
    ∀ (dfs : List (List BusinessRecord)) (k : Nat),
      (merge_csv_files dfs).filter (fun r => r.file_number == k)
        = ((dfs.flatten.filter (fun r => r.file_number == k)).getLast?).toList ∧
      (merge_worker_outputs dfs).filter (fun r => r.file_number == k)
        = ((dfs.flatten.filter (fun r => r.file_number == k)).head?).toList := by
  intro dfs k
  constructor
  · exact filter_dropDupLast k dfs.flatten
  · have hfirst := filter_dropDupFirstAux k dfs.flatten []
    simp only [List.not_mem_nil, if_false] at hfirst
    have hlen : ((dropDupFirst dfs.flatten).filter (fun r => r.file_number == k)).length ≤ 1 := by
      rw [dropDupFirst, hfirst]
      cases (dfs.flatten.filter (fun r => r.file_number == k)).head? <;> simp
    rw [merge_worker_outputs, filter_sortByKey_of_le_one _ _ hlen, dropDupFirst, hfirst]

theorem runLoop_miss_invariant (env : Nat → ProbeOutcome) :
    ∀ (fuel : Nat) (s : RunState),
      s.consecutive_misses ≤ MAX_CONSECUTIVE_MISSES →
      (runLoop env fuel s).consecutive_misses ≤ MAX_CONSECUTIVE_MISSES := by
  intro fuel
  induction fuel with
  | zero => intro s h; exact h
  | succ n ih =>
    intro s h
    rw [runLoop]
    by_cases hlt : s.consecutive_misses < MAX_CONSECUTIVE_MISSES
    · rw [if_pos hlt]
      apply ih
      rcases hd : scrape_business (env s.current_file_number) s.current_file_number with _ | d
      · simp [runStep, hd]
        omega
      · simp [runStep, hd]
    · rw [if_neg hlt]
      exact h

/-- C3 counterexample: a probe page with a details link but from which
neither a business name nor a business type could be located is still
persisted — the loop appends a row with empty name and type. -/
theorem nameless_record_persisted :
    (runLoop
        (fun _ => { noResultsText := false, resultsName := "",
                    hasDetailsLink := true, urlHasDetails := false,
                    businessType := "", filingDate := "" })
        1 (initRunState 1)).sink
      = [{ file_number := 1, business_name := "", business_type := "",
           filing_date := "" }] := by
  decide

/-- C3 (amended): a search miss (no-results text, or no details navigation)
yields no record and a miss step appends nothing to the sink; but a FOUND
page lacking both name and type is still persisted by the file-number loops
— only the name-search worker's exact-type filter (which the empty type
never passes) keeps such records out of its own sink. -/
theorem miss_never_persisted :
    (∀ (p : ProbeOutcome) (n : Nat), p.noResultsText = true →
      scrape_business p n = none) ∧
    (∀ (p : ProbeOutcome) (n : Nat), p.hasDetailsLink = false →
      p.urlHasDetails = false → scrape_business p n = none) ∧
    (∀ (env : Nat → ProbeOutcome) (s : RunState),
      scrape_business (env s.current_file_number) s.current_file_number = none →
      (runStep env s).sink = s.sink) ∧
    (∀ r : BusinessRecord, r.business_type = "" → worker_saves r = false) := by
  refine ⟨?_, ?_, ?_, ?_⟩
  · intro p n h
    simp [scrape_business, search_by_file_number, h]
  · intro p n h1 h2
    simp [scrape_business, search_by_file_number, h1, h2]
  · intro env s h
    simp [runStep, h]
  · intro r h
    simp [worker_saves, TARGET_BUSINESS_TYPES, h]

/-- Witness for C3 at concrete inputs: a no-results page is a miss; a
type-less record never passes the worker's save filter. -/
theorem miss_never_persisted_witness :
    scrape_business
      { noResultsText := true, resultsName := "", hasDetailsLink := false,
        urlHasDetails := false, businessType := "", filingDate := "" } 7 = none ∧
    worker_saves { file_number := 7, business_name := "X", business_type := "",
                   filing_date := "2023-01-15" } = false := by
  constructor
  · exact miss_never_persisted.1 _ 7 rfl
  · exact miss_never_persisted.2.2.2 _ rfl

/-- C7: the sequential loop runs while consecutive misses are strictly below
MAX_CONSECUTIVE_MISSES (so it never stops before the threshold), a state
that has reached the threshold is a fixpoint (so it never runs after), the
counter never exceeds the threshold, and each step resets the counter to
zero on a find and increments it by one on a miss. -/
theorem consecutive_miss_termination :
    (∀ (env : Nat → ProbeOutcome) (fuel start : Nat),
      (runLoop env fuel (initRunState start)).consecutive_misses
        ≤ MAX_CONSECUTIVE_MISSES) ∧
    (∀ (env : Nat → ProbeOutcome) (s : RunState),
      s.consecutive_misses = MAX_CONSECUTIVE_MISSES →
      ∀ fuel, runLoop env fuel s = s) ∧
    (∀ (env : Nat → ProbeOutcome) (fuel : Nat) (s : RunState),
      s.consecutive_misses < MAX_CONSECUTIVE_MISSES →
      runLoop env (fuel + 1) s = runLoop env fuel (runStep env s)) ∧
    (∀ (env : Nat → ProbeOutcome) (s : RunState),
      (scrape_business (env s.current_file_number) s.current_file_number).isSome = true →
      (runStep env s).consecutive_misses = 0) ∧
    (∀ (env : Nat → ProbeOutcome) (s : RunState),
      scrape_business (env s.current_file_number) s.current_file_number = none →
      (runStep env s).consecutive_misses = s.consecutive_misses + 1) := by
  refine ⟨?_, ?_, ?_, ?_, ?_⟩
  · intro env fuel start
    exact runLoop_miss_invariant env fuel _ (by simp [initRunState])
  · intro env s h fuel
    cases fuel with
    | zero => rfl
    | succ n => rw [runLoop, if_neg (by omega)]
  · intro env fuel s h
    rw [runLoop, if_pos h]
  · intro env s h
    rcases hd : scrape_business (env s.current_file_number) s.current_file_number with _ | d
    · rw [hd] at h
      simp at h
    · simp [runStep, hd]
  · intro env s h
    simp [runStep, h]

/-- Witness for C7: with an all-miss environment and fuel 100 the loop
reaches exactly the threshold and then is a fixpoint. -/
theorem consecutive_miss_termination_witness :
    (runLoop
        (fun _ => { noResultsText := true, resultsName := "",
                    hasDetailsLink := false, urlHasDetails := false,
                    businessType := "", filingDate := "" })
        100 (initRunState 0)).consecutive_misses ≤ MAX_CONSECUTIVE_MISSES ∧
    runLoop
        (fun _ => { noResultsText := true, resultsName := "",
                    hasDetailsLink := false, urlHasDetails := false,
                    businessType := "", filingDate := "" })
        5
        (runLoop
          (fun _ => { noResultsText := true, resultsName := "",
                      hasDetailsLink := false, urlHasDetails := false,
                      businessType := "", filingDate := "" })
          100 (initRunState 0))
      = runLoop
          (fun _ => { noResultsText := true, resultsName := "",
                      hasDetailsLink := false, urlHasDetails := false,
                      businessType := "", filingDate := "" })
          100 (initRunState 0) := by
  constructor
  · exact consecutive_miss_termination.1 _ 100 0
  · exact consecutive_miss_termination.2.1 _ _ (by decide) 5

theorem intKeys_append (s a e : Int) (h1 : s - 1 ≤ a) (h2 : a ≤ e) :
    intKeys s a ++ intKeys (a + 1) e = intKeys s e := by
  unfold intKeys
  rw [show (e + 1 - s).toNat = (a + 1 - s).toNat + (e - a).toNat from by omega]
  rw [List.range_add, List.map_append, List.map_map,
      show (e + 1 - (a + 1)).toNat = (e - a).toNat from by omega]
  congr 1
  apply List.map_congr_left
  intro x hx
  simp only [Function.comp_apply]
  have h3 : ((a + 1 - s).toNat : Int) = a + 1 - s := by omega
  simp only [Int.ofNat_eq_coe]
  push_cast
  omega

theorem intKeys_chunks (c : Int) (hc : 0 ≤ c) :
    ∀ (m : Nat) (s : Int),
      ((List.range m).map
        (fun i => intKeys (s + Int.ofNat i * c) (s + Int.ofNat i * c + c - 1))).flatten
        = intKeys s (s + Int.ofNat m * c - 1) := by
  intro m
  induction m with
  | zero =>
    intro s
    simp [intKeys, show (s + Int.ofNat 0 * c - 1 + 1 - s).toNat = 0 from by simp]
  | succ n ih =>
    intro s
    rw [List.range_succ, List.map_append, List.flatten_append, ih]
    simp only [List.map_cons, List.map_nil, List.flatten_cons, List.flatten_nil,
      List.append_nil]
    have hngc : (0 : Int) ≤ Int.ofNat n * c :=
      mul_nonneg (Int.ofNat_nonneg n) hc
    have h := intKeys_append s (s + Int.ofNat n * c - 1) (s + Int.ofNat (n + 1) * c - 1)
      (by omega)
      (by
        have h1 : (Int.ofNat (n + 1)) = Int.ofNat n + 1 := by simp
        have h2 : (Int.ofNat n + 1) * c = Int.ofNat n * c + c := by ring
        rw [h1, h2]
        omega)
    rw [show s + Int.ofNat n * c - 1 + 1 = s + Int.ofNat n * c from by ring] at h
    rw [← h]
    congr 1
    have h3 : (Int.ofNat (n + 1)) = Int.ofNat n + 1 := by simp
    rw [h3]
    ring_nf

theorem take_chunks (c : Nat) (ps : List α) :
    ∀ m : Nat,
      ((List.range m).map (fun i => (ps.drop (i * c)).take c)).flatten
        = ps.take (m * c) := by
  intro m
  induction m with
  | zero => simp
  | succ n ih =>
    rw [List.range_succ, List.map_append, List.flatten_append, ih]
    simp only [List.map_cons, List.map_nil, List.flatten_cons, List.flatten_nil,
      List.append_nil]
    rw [show (n + 1) * c = n * c + c from by rw [Nat.succ_mul], List.take_add]

set_option maxRecDepth 8000 in
/-- C8: for every worker count N >= 1 the partitioning tiles the keyspace —
concatenating the workers' key slices in worker order reproduces exactly the
full ordered key list (hence no gaps, no overlaps, contiguous slices, the
last worker absorbing the division remainder), both for integer file-number
ranges and for pattern-list slicing; generate_patterns has 676 tokens. -/
theorem partition_coverage :
    (∀ (numWorkers : Nat) (totalStart totalEnd : Int), 1 ≤ numWorkers →
      totalStart ≤ totalEnd →
      ((workerRanges numWorkers totalStart totalEnd).map
        (fun pr => intKeys pr.1 pr.2)).flatten = intKeys totalStart totalEnd) ∧
    (∀ (numWorkers : Nat) (patterns : List String), 1 ≤ numWorkers →
      (workerPatterns numWorkers patterns).flatten = patterns) ∧
    generate_patterns.length = 676 := by
  refine ⟨?_, ?_, by rfl⟩
  · intro n s e hn hse
    obtain ⟨m, rfl⟩ : ∃ m, n = m + 1 := ⟨n - 1, by omega⟩
    unfold workerRanges
    have hT : (1 : Int) ≤ e - s + 1 := by omega
    have hc0 : (0 : Int) ≤ (e - s + 1) / ((m + 1 : Nat) : Int) := by
      apply Int.ediv_nonneg <;> omega
    set c := (e - s + 1) / ((m + 1 : Nat) : Int) with hc
    have hnc : ((m + 1 : Nat) : Int) * c ≤ e - s + 1 := by
      have h1 : ((e - s + 1).toNat : Int) = e - s + 1 := by omega
      have h2 : c = (((e - s + 1).toNat / (m + 1) : Nat) : Int) := by
        rw [hc, ← h1]
        exact (Int.natCast_ediv _ _).symm
      have h3 : (m + 1) * ((e - s + 1).toNat / (m + 1)) ≤ (e - s + 1).toNat :=
        Nat.mul_div_le _ (m + 1)
      rw [h2,
        show ((m + 1 : Nat) : Int) * (((e - s + 1).toNat / (m + 1) : Nat) : Int)
          = (((m + 1) * ((e - s + 1).toNat / (m + 1)) : Nat) : Int) from by push_cast; ring]
      omega
    rw [List.map_map, List.range_succ, List.map_append, List.flatten_append]
    simp only [Function.comp, Nat.add_sub_cancel]
    have hmap :
        (List.range m).map
            ((fun pr : Int × Int => intKeys pr.1 pr.2) ∘ fun i =>
              if i = m then (s + Int.ofNat i * c, e)
              else (s + Int.ofNat i * c, s + Int.ofNat i * c + c - 1))
          = (List.range m).map
              (fun i => intKeys (s + Int.ofNat i * c) (s + Int.ofNat i * c + c - 1)) := by
      apply List.map_congr_left
      intro i hi
      have hne : ¬ i = m := by
        have := List.mem_range.mp hi
        omega
      simp [hne]
    rw [hmap, intKeys_chunks c hc0 m s]
    simp only [List.map_cons, List.map_nil, List.flatten_cons, List.flatten_nil,
      List.append_nil, Function.comp_apply, Nat.add_sub_cancel, if_pos rfl]
    have hm1c : (0 : Int) ≤ Int.ofNat m * c := mul_nonneg (Int.ofNat_nonneg m) hc0
    have hmc : Int.ofNat m * c ≤ e - s + 1 := by
      have hle : (Int.ofNat m : Int) ≤ ((m + 1 : Nat) : Int) := by
        simp only [Int.ofNat_eq_coe]
        push_cast
        omega
      calc Int.ofNat m * c ≤ ((m + 1 : Nat) : Int) * c :=
            mul_le_mul_of_nonneg_right hle hc0
        _ ≤ e - s + 1 := hnc
    have happ := intKeys_append s (s + Int.ofNat m * c - 1) e (by omega) (by omega)
    rw [show s + Int.ofNat m * c - 1 + 1 = s + Int.ofNat m * c from by ring] at happ
    exact happ
  · intro n ps hn
    obtain ⟨m, rfl⟩ : ∃ m, n = m + 1 := ⟨n - 1, by omega⟩
    unfold workerPatterns
    rw [List.range_succ, List.map_append, List.flatten_append]
    simp only [Nat.add_sub_cancel]
    have hmap :
        (List.range m).map
            (fun i =>
              if i = m then ps.drop (i * (ps.length / (m + 1)))
              else (ps.drop (i * (ps.length / (m + 1)))).take (ps.length / (m + 1)))
          = (List.range m).map
              (fun i => (ps.drop (i * (ps.length / (m + 1)))).take (ps.length / (m + 1))) := by
      apply List.map_congr_left
      intro i hi
      have hne : ¬ i = m := by
        have := List.mem_range.mp hi
        omega
      simp [hne]
    rw [hmap, take_chunks (ps.length / (m + 1)) ps m]
    simp only [List.map_cons, List.map_nil, List.flatten_cons, List.flatten_nil,
      List.append_nil, Nat.add_sub_cancel, if_pos rfl]
    exact List.take_append_drop _ ps

/-- Witness for C8: three workers over [1,10] tile the range; three workers
over four patterns tile the pattern list. -/
theorem partition_coverage_witness :
    ((workerRanges 3 1 10).map (fun pr => intKeys pr.1 pr.2)).flatten
      = intKeys 1 10 ∧
    (workerPatterns 3 ["aa", "ab", "ac", "ad"]).flatten = ["aa", "ab", "ac", "ad"] := by
  constructor
  · exact partition_coverage.1 3 1 10 (by omega) (by omega)
  · exact partition_coverage.2.1 3 _ (by omega)

theorem sinkOf_spec (env : Nat → Option BusinessRecord)
    (wf : ∀ k r, env k = some r → r.file_number = k) (lo hi : Nat)
    (r : BusinessRecord) (h : r ∈ sinkOf env lo hi) :
    lo ≤ r.file_number ∧ r.file_number ≤ hi ∧ env r.file_number = some r := by
  unfold sinkOf at h
  rw [List.mem_filterMap] at h
  obtain ⟨k, hk, he⟩ := h
  have hkey := wf k r he
  have hkr := List.mem_range'_1.mp hk
  refine ⟨by omega, by omega, by rw [hkey]; exact he⟩

/-- C9: a worker checkpointed at key K (written only at multiples of ten,
so lagging the crash point) restarts at K + 1: it never re-emits a record
for a key at or below K; with the scrape environment unchanged on the
re-scraped overlap, any key appearing twice in the combined sink carries
equal rows, and either consolidation dedup leaves at most one row per key. -/
theorem resume_no_divergent_duplicates :
    ∀ (env1 env2 : Nat → Option BusinessRecord) (start endNum crash checkpoint : Nat),
      start ≤ checkpoint → checkpoint ≤ crash → crash ≤ endNum →
      checkpoint < endNum →
      (∀ k, checkpoint < k → k ≤ crash → env2 k = env1 k) →
      (∀ k r, env1 k = some r → r.file_number = k) →
      (∀ k r, env2 k = some r → r.file_number = k) →
      (∀ r ∈ sinkOf env2 (resumeStart start endNum (some checkpoint)) endNum,
        checkpoint < r.file_number) ∧
      (∀ r1 r2,
        r1 ∈ sinkOf env1 start crash ++
          sinkOf env2 (resumeStart start endNum (some checkpoint)) endNum →
        r2 ∈ sinkOf env1 start crash ++
          sinkOf env2 (resumeStart start endNum (some checkpoint)) endNum →
        r1.file_number = r2.file_number → r1 = r2) ∧
      (∀ k, ((dropDupLast (sinkOf env1 start crash ++
          sinkOf env2 (resumeStart start endNum (some checkpoint)) endNum)).filter
            (fun r => r.file_number == k)).length ≤ 1) := by
  intro env1 env2 start endNum crash checkpoint h1 h2 h3 h4 hstable wf1 wf2
  have hres : resumeStart start endNum (some checkpoint) = checkpoint + 1 := by
    simp [resumeStart]
    omega
  rw [hres]
  refine ⟨?_, ?_, ?_⟩
  · intro r hr
    have := sinkOf_spec env2 wf2 _ _ r hr
    omega
  · intro r1 r2 hr1 hr2 hkey
    rcases List.mem_append.mp hr1 with hs1 | hs1 <;>
      rcases List.mem_append.mp hr2 with hs2 | hs2
    · have a1 := sinkOf_spec env1 wf1 _ _ r1 hs1
      have a2 := sinkOf_spec env1 wf1 _ _ r2 hs2
      have : some r1 = some r2 := by rw [← a1.2.2, hkey, a2.2.2]
      exact Option.some.inj this
    · have a1 := sinkOf_spec env1 wf1 _ _ r1 hs1
      have a2 := sinkOf_spec env2 wf2 _ _ r2 hs2
      have hov : env2 r2.file_number = env1 r2.file_number :=
        hstable _ (by omega) (by omega)
      have : some r1 = some r2 := by
        rw [← a1.2.2, hkey, ← hov, a2.2.2]
      exact Option.some.inj this
    · have a1 := sinkOf_spec env2 wf2 _ _ r1 hs1
      have a2 := sinkOf_spec env1 wf1 _ _ r2 hs2
      have hov : env2 r1.file_number = env1 r1.file_number :=
        hstable _ (by omega) (by omega)
      have : some r1 = some r2 := by
        rw [← a1.2.2, hov, hkey, a2.2.2]
      exact Option.some.inj this
    · have a1 := sinkOf_spec env2 wf2 _ _ r1 hs1
      have a2 := sinkOf_spec env2 wf2 _ _ r2 hs2
      have : some r1 = some r2 := by rw [← a1.2.2, hkey, a2.2.2]
      exact Option.some.inj this
  · intro k
    rw [filter_dropDupLast]
    cases (((sinkOf env1 start crash ++
        sinkOf env2 (checkpoint + 1) endNum).filter
          (fun r => r.file_number == k)).getLast?) <;> simp

/-- Witness for C9: a concrete always-finds environment, checkpoint 10 after
crashing at 15 in the range [1,20] — the combined sink deduplicates to at
most one row per key. -/
theorem resume_no_divergent_duplicates_witness :
    ((dropDupLast (sinkOf
        (fun k => some { file_number := k, business_name := "A",
                         business_type := "LLC", filing_date := "2023-01-01" })
        1 15 ++
      sinkOf
        (fun k => some { file_number := k, business_name := "A",
                         business_type := "LLC", filing_date := "2023-01-01" })
        (resumeStart 1 20 (some 10)) 20)).filter
          (fun r => r.file_number == 12)).length ≤ 1 := by
  have h := resume_no_divergent_duplicates
    (fun k => some { file_number := k, business_name := "A",
                     business_type := "LLC", filing_date := "2023-01-01" })
    (fun k => some { file_number := k, business_name := "A",
                     business_type := "LLC", filing_date := "2023-01-01" })
    1 20 15 10 (by omega) (by omega) (by omega) (by omega)
    (fun k h1 h2 => rfl)
    (fun k r hr => by cases hr; rfl)
    (fun k r hr => by cases hr; rfl)
  have h12 := h.2.2 12
  simpa [resumeStart] using h12
